import Mathlib

/-!
# Verification of the skinone upload/classification backend

A shallow embedding of the routed request handlers of the repository
(`images/views.py`, `classification/views.py`, `users/views.py`) together
with proofs of the specification's testable properties.

Conventions of the embedding:
* Raw bytes are `List Nat` (each entry a byte value).
* The relational store and the blob sink are a single explicit `Store`
  value threaded through each handler; `Image.objects.create` appends a
  row, `filter(...).first()` is `List.find?` in insertion order.
* Python definitions that are shadowed by a later definition of the same
  name in the same module are embedded from the *later* definition, which
  is the one the URL configuration resolves (this matters for
  `upload_batch_images`, `list_images` and `list_classifications`).
* Cryptographic digests are replaced by an executable deterministic
  stand-in; none of the proved properties rely on collision resistance,
  only on determinism of the digest.
-/

/-- Raw file content: a list of byte values. -/
abbrev Bytes := List Nat

/-- Executable stand-in for the SHA-256 hex digest computed by
`calculate_file_hash` / `calculate_file_hash_from_content`.  The dedup
logic only needs the digest to be a deterministic function of the bytes. -/
def sha256Hex (content : Bytes) : String :=
  toString (content.foldl (fun a b => a * 256 + b % 256) 1)

/-- An uploaded multipart file: declared filename plus content.
`InMemoryUploadedFile.size` is the content length. -/
structure UploadedFile where
  name : String
  content : Bytes
deriving DecidableEq, Repr

/-- `os.path.splitext(name)[1].lower()`: the extension starts at the last
dot of the name, except that dots leading the name never begin an
extension; the result is lowercased. -/
def fileExtension (name : String) : String :=
  let cs := name.toList
  let lead := (cs.takeWhile (fun c => c = '.')).length
  let rest := cs.drop lead
  let tail := rest.reverse.takeWhile (fun c => c ≠ '.')
  if tail.length = rest.length then ""
  else String.mk (('.' :: tail.reverse).map Char.toLower)

/-- `allowed_extensions` in `images/views.py`. -/
def allowed_extensions : List String :=
  [".jpg", ".jpeg", ".png", ".gif", ".bmp", ".webp"]

/-- `max_size = 10 * 1024 * 1024` (10 MiB). -/
def max_size : Nat := 10 * 1024 * 1024

/-- `settings.MEDIA_URL` (the settings module is not part of the sources;
only the constant's role matters, never its value). -/
def MEDIA_URL : String := "/media/"

/-- `settings.IMAGES_UPLOAD_DIR`, the media subdirectory for images. -/
def IMAGES_UPLOAD_DIR : String := "images"

/-- A row of the `Image` model (`images/models.py`). -/
structure ImageRec where
  id : Nat
  file_path : String
  file_hash : String
  original_filename : String
  file_size : Nat
  uploaded_by : Option Nat
deriving DecidableEq, Repr

/-- A row of the `Classification` model (`classification/models.py`).
Its persisted fields are `stage` and `observations` (the latter renamed
from `comment` per the comment in the model). -/
structure ClassificationRec where
  id : Nat
  user : Nat
  image : Nat
  stage : String
  observations : String
deriving DecidableEq, Repr

/-- A row of the custom `User` model (`users/models.py`). -/
structure UserRec where
  id : Nat
  email : String
  is_active : Bool
  is_staff : Bool
deriving DecidableEq, Repr

/-- The persistent state: relational rows plus the blob-sink paths that
have been written.  Fresh primary keys are modelled by counters. -/
structure Store where
  images : List ImageRec := []
  nextImageId : Nat := 1
  files : List String := []
  classifications : List ClassificationRec := []
  nextClsId : Nat := 1
deriving DecidableEq, Repr

def emptyStore : Store := {}

/-- `Image.objects.filter(file_hash=h).first()` (insertion order). -/
def findByHash (st : Store) (h : String) : Option ImageRec :=
  st.images.find? (fun img => img.file_hash == h)

/-- `save_uploaded_file`: writes the bytes to `<dir>/<hash><ext>` where
`ext` comes from the uploaded name, and returns the relative path.
Writing an already-present path overwrites it in place. -/
def save_uploaded_file (st : Store) (f : UploadedFile) (fileHash : String) :
    String × Store :=
  let ext := fileExtension f.name
  let path := IMAGES_UPLOAD_DIR ++ "/" ++ fileHash ++ ext
  (path, { st with files := if path ∈ st.files then st.files else st.files ++ [path] })

/-- `save_image_from_content`: like `save_uploaded_file` but defaults a
missing extension to `.jpg`. -/
def save_image_from_content (st : Store) (fileHash : String)
    (originalFilename : String) : String × Store :=
  let ext0 := fileExtension originalFilename
  let ext := if ext0 = "" then ".jpg" else ext0
  let path := IMAGES_UPLOAD_DIR ++ "/" ++ fileHash ++ ext
  (path, { st with files := if path ∈ st.files then st.files else st.files ++ [path] })

/-- Responses of `upload_single_image` (`images/views.py`, the routed
definition): 400 on validation failure, 201 with `{image: {id, url}}` on
both the dedup-hit and the insert path, 500 from the blanket handler. -/
inductive SingleResp where
  | badRequest (msg : String)
  | imageOk (id : Nat) (url : String)
  | serverError
deriving DecidableEq, Repr

def SingleResp.status : SingleResp → Nat
  | .badRequest _ => 400
  | .imageOk _ _ => 201
  | .serverError => 500

def isImageOk : SingleResp → Bool
  | .imageOk _ _ => true
  | _ => false

def respId : SingleResp → Nat
  | .imageOk i _ => i
  | _ => 0

/-- `upload_single_image` (POST /images/upload/single/), embedded from the
routed definition: presence check, extension allow-list, 10 MiB ceiling,
hash, dedup lookup, then file write and row insert. -/
def upload_single_image (user : Nat) (file : Option UploadedFile) (st : Store) :
    SingleResp × Store :=
  match file with
  | none => (.badRequest "No image file provided", st)
  | some f =>
    if fileExtension f.name ∉ allowed_extensions then
      (.badRequest "File type not allowed", st)
    else if f.content.length > max_size then
      (.badRequest "File too large. Maximum size is 10MB", st)
    else
      let h := sha256Hex f.content
      match findByHash st h with
      | some existing =>
        (.imageOk existing.id (MEDIA_URL ++ existing.file_path), st)
      | none =>
        let ps := save_uploaded_file st f h
        let img : ImageRec :=
          ⟨ps.2.nextImageId, ps.1, h, f.name, f.content.length, some user⟩
        (.imageOk img.id (MEDIA_URL ++ ps.1),
          { ps.2 with images := ps.2.images ++ [img],
                      nextImageId := ps.2.nextImageId + 1 })

/-- Per-item outcome reported by the routed batch upload. -/
inductive BatchItem where
  | existing (id : Nat) (url : String)
  | uploadedNew (id : Nat) (url : String)
deriving DecidableEq, Repr

/-- Responses of the routed `upload_batch_images`: 400 when no files are
given, otherwise 201 with the per-item `uploaded` list. -/
inductive BatchResp where
  | badRequest (msg : String)
  | ok (uploaded : List BatchItem)
deriving DecidableEq, Repr

def BatchResp.status : BatchResp → Nat
  | .badRequest _ => 400
  | .ok _ => 201

def batchRespCount : BatchResp → Nat
  | .badRequest _ => 0
  | .ok l => l.length

/-- The loop body of the routed `upload_batch_images`: invalid items are
skipped silently, duplicates are reported as `existing`, fresh content is
written and inserted. -/
def processBatchFile (user : Nat) (acc : List BatchItem × Store)
    (f : UploadedFile) : List BatchItem × Store :=
  let uploaded := acc.1
  let st := acc.2
  if fileExtension f.name ∉ allowed_extensions then (uploaded, st)
  else if f.content.length > max_size then (uploaded, st)
  else
    let h := sha256Hex f.content
    match findByHash st h with
    | some ex => (uploaded ++ [.existing ex.id (MEDIA_URL ++ ex.file_path)], st)
    | none =>
      let ps := save_uploaded_file st f h
      let img : ImageRec :=
        ⟨ps.2.nextImageId, ps.1, h, f.name, f.content.length, some user⟩
      (uploaded ++ [.uploadedNew img.id (MEDIA_URL ++ ps.1)],
        { ps.2 with images := ps.2.images ++ [img],
                    nextImageId := ps.2.nextImageId + 1 })

/-- `upload_batch_images` (POST /images/upload/), embedded from the routed
definition at the bottom of `images/views.py`.  Note: unlike the shadowed
earlier definition of the same name, this one imposes **no cap** on the
number of files. -/
def upload_batch_images (user : Nat) (files : List UploadedFile) (st : Store) :
    BatchResp × Store :=
  if files = [] then (.badRequest "No image files provided", st)
  else
    let r := files.foldl (processBatchFile user) ([], st)
    (.ok r.1, r.2)

/-- A payload element of the base64 batch endpoint.  `data` is the result
of `decode_base64_image` on the `image_data` field: `none` models a
missing or undecodable base64 string, `some bs` a string decoding to
`bs` (the textual base64 alphabet itself is abstracted away). -/
structure B64Payload where
  data : Option Bytes
  filename : String
deriving DecidableEq, Repr

/-- Per-item outcome reported by `upload_batch_base64_images`. -/
inductive B64ItemResult where
  | duplicate (imageId : Nat)
  | success (imageId : Nat)
deriving DecidableEq, Repr

/-- Responses of `upload_batch_base64_images`: 400 on an empty or
over-long list, otherwise 200 with per-item results and a count of the
per-item error messages. -/
inductive B64BatchResp where
  | badRequest (msg : String)
  | ok (results : List B64ItemResult) (errorCount : Nat)
deriving DecidableEq, Repr

def B64BatchResp.status : B64BatchResp → Nat
  | .badRequest _ => 400
  | .ok _ _ => 200

/-- Loop body of `upload_batch_base64_images`: decode failure and size
overflow add an error message; otherwise hash, dedup, write, insert. -/
def b64Step (user : Nat) (acc : List B64ItemResult × Nat × Store)
    (item : B64Payload) : List B64ItemResult × Nat × Store :=
  let results := acc.1
  let errs := acc.2.1
  let st := acc.2.2
  match item.data with
  | none => (results, errs + 1, st)
  | some bs =>
    if bs.length > max_size then (results, errs + 1, st)
    else
      let h := sha256Hex bs
      match findByHash st h with
      | some ex => (results ++ [.duplicate ex.id], errs, st)
      | none =>
        let ps := save_image_from_content st h item.filename
        let img : ImageRec :=
          ⟨ps.2.nextImageId, ps.1, h, item.filename, bs.length, some user⟩
        (results ++ [.success img.id], errs,
          { ps.2 with images := ps.2.images ++ [img],
                      nextImageId := ps.2.nextImageId + 1 })

/-- `upload_batch_base64_images` (POST /images/upload/base64/batch/):
rejects an empty list, and rejects more than 20 items with a 400
**before any item is processed**. -/
def upload_batch_base64_images (user : Nat) (items : List B64Payload)
    (st : Store) : B64BatchResp × Store :=
  if items = [] then (.badRequest "No images data provided", st)
  else if items.length > 20 then
    (.badRequest "Too many images. Maximum 20 images per batch", st)
  else
    let r := items.foldl (b64Step user) ([], 0, st)
    (.ok r.1 r.2.1, r.2.2)

/-- `CLASSIFICATION_CHOICES` of `classification/models.py` (keys and
display labels; accents of the display text elided). -/
def CLASSIFICATION_CHOICES : List (String × String) :=
  [("stage1", "Estagio 1"), ("stage2", "Estagio 2"),
   ("stage3", "Estagio 3"), ("stage4", "Estagio 4"),
   ("not_classifiable", "Not Classifiable"), ("dtpi", "DTPI")]

/-- `[choice[0] for choice in Classification.CLASSIFICATION_CHOICES]`. -/
def valid_stages : List String := CLASSIFICATION_CHOICES.map Prod.fst

/-- Entry of the `classified` array of the with-stage response. -/
structure ClassifiedItem where
  id : Nat
  image_id : Nat
  stage : String
deriving DecidableEq, Repr

/-- Responses of `upload_with_stage`: 400 for a missing or invalid stage
or an empty file list, 201 with uploaded and classified lists for an
authenticated request, and 500 from the blanket handler when the final
log line dereferences `request.user.name` on the anonymous user. -/
inductive StageResp where
  | badRequest (msg : String)
  | ok (uploaded : List BatchItem) (stage : String)
      (classified : List ClassifiedItem)
  | serverError
deriving DecidableEq, Repr

def StageResp.status : StageResp → Nat
  | .badRequest _ => 400
  | .ok _ _ _ => 201
  | .serverError => 500

/-- Loop body of `upload_with_stage`.  `user` is `none` for an
unauthenticated request (the view carries no auth decorator): assigning
the anonymous user to a foreign key raises, the blanket per-file handler
swallows the exception and the loop continues.  On the dedup path the
`uploaded` entry is appended before the classification insert is
attempted; on the fresh path the exception fires before the image row is
inserted but after the file write. -/
def stageStep (user : Option Nat) (stage : String)
    (acc : List BatchItem × List ClassifiedItem × Store)
    (f : UploadedFile) : List BatchItem × List ClassifiedItem × Store :=
  let uploaded := acc.1
  let classified := acc.2.1
  let st := acc.2.2
  if fileExtension f.name ∉ allowed_extensions then (uploaded, classified, st)
  else if f.content.length > max_size then (uploaded, classified, st)
  else
    let h := sha256Hex f.content
    match findByHash st h with
    | some ex =>
      let uploaded1 := uploaded ++ [.existing ex.id (MEDIA_URL ++ ex.file_path)]
      match user with
      | none => (uploaded1, classified, st)
      | some uid =>
        let c : ClassificationRec := ⟨st.nextClsId, uid, ex.id, stage, ""⟩
        (uploaded1, classified ++ [⟨c.id, ex.id, stage⟩],
          { st with classifications := st.classifications ++ [c],
                    nextClsId := st.nextClsId + 1 })
    | none =>
      let ps := save_uploaded_file st f h
      match user with
      | none => (uploaded, classified, ps.2)
      | some uid =>
        let img : ImageRec :=
          ⟨ps.2.nextImageId, ps.1, h, f.name, f.content.length, some uid⟩
        let st2 : Store :=
          { ps.2 with images := ps.2.images ++ [img],
                      nextImageId := ps.2.nextImageId + 1 }
        let c : ClassificationRec := ⟨st2.nextClsId, uid, img.id, stage, ""⟩
        (uploaded ++ [.uploadedNew img.id (MEDIA_URL ++ ps.1)],
          classified ++ [⟨c.id, img.id, stage⟩],
          { st2 with classifications := st2.classifications ++ [c],
                     nextClsId := st2.nextClsId + 1 })

/-- `upload_with_stage` (POST /images/upload/with-stage/?stage=...).  The
view is **not** wrapped in `jwt_required`; `user` is the identity DRF
attaches, `none` when no credentials accompany the request.  After the
loop, the success log line reads `request.user.name`: on the anonymous
user that attribute lookup raises `AttributeError`, which lands in the
blanket handler and answers 500 — so the 201 response is reachable only
authenticated, while the loop's store effects (file writes; no rows, the
per-file foreign-key failures having been swallowed) persist. -/
def upload_with_stage (user : Option Nat) (stage : Option String)
    (files : List UploadedFile) (st : Store) : StageResp × Store :=
  match stage with
  | none => (.badRequest "Stage parameter is required", st)
  | some sv =>
    if sv ∉ valid_stages then (.badRequest "Invalid stage", st)
    else if files = [] then (.badRequest "No image files provided", st)
    else
      let r := files.foldl (stageStep user sv) ([], [], st)
      match user with
      | some _ => (.ok r.1 sv r.2.1, r.2.2)
      | none => (.serverError, r.2.2)

/-- The single-upload handler with the dedup lookup and the row insert
evaluated against different store states: `delta` is the set of rows a
concurrent request inserts between the lookup and the insert (the race
window of the lookup-then-insert sequence).  If the freshly computed hash
already sits in `delta`, `Image.objects.create` violates the unique
constraint on `file_hash`; the raised `IntegrityError` reaches the
blanket `except Exception` handler, which answers 500.  The file write
precedes the insert and therefore persists. -/
def upload_single_image_concurrent (user : Nat) (f : UploadedFile)
    (st : Store) (delta : List ImageRec) : SingleResp × Store :=
  if fileExtension f.name ∉ allowed_extensions then
    (.badRequest "File type not allowed", { st with images := st.images ++ delta })
  else if f.content.length > max_size then
    (.badRequest "File too large. Maximum size is 10MB",
      { st with images := st.images ++ delta })
  else
    let h := sha256Hex f.content
    match findByHash st h with
    | some existing =>
      (.imageOk existing.id (MEDIA_URL ++ existing.file_path),
        { st with images := st.images ++ delta })
    | none =>
      let stc : Store := { st with images := st.images ++ delta }
      let ps := save_uploaded_file stc f h
      if delta.any (fun r => r.file_hash == h) then
        (.serverError, ps.2)
      else
        let img : ImageRec :=
          ⟨ps.2.nextImageId, ps.1, h, f.name, f.content.length, some user⟩
        (.imageOk img.id (MEDIA_URL ++ ps.1),
          { ps.2 with images := ps.2.images ++ [img],
                      nextImageId := ps.2.nextImageId + 1 })

/-- Result of a handler guarded by the `jwt_required` decorator. -/
inductive Gated (R : Type) where
  | unauthorized (error : String)
  | handled (r : R)
deriving DecidableEq, Repr

def Gated.status {R : Type} (statusOf : R → Nat) : Gated R → Nat
  | .unauthorized _ => 401
  | .handled r => statusOf r

/-- `auth_header.startswith(prefix)` of Python, over character lists. -/
def strStartsWith (s pre : String) : Bool :=
  s.toList.take pre.toList.length == pre.toList

/-- The `jwt_required` decorator of `images/views.py`: the Authorization
header must start with `Bearer `, the second space-separated word is
verified (`verify` stands for `users.views.verify_jwt_token` closed over
the server secret and the current time, returning the `(user_id, error)`
pair), and the user id must resolve in the user table; only then does the
wrapped handler run. -/
def jwt_required {R : Type} (verify : String → Option Nat × Option String)
    (users : List UserRec) (header : String)
    (handler : UserRec → Store → R × Store) (st : Store) : Gated R × Store :=
  if strStartsWith header "Bearer " = false then
    (.unauthorized "Authorization header missing or invalid format", st)
  else
    let token := ((header.splitOn " ").getD 1 "")
    match verify token with
    | (_, some err) => (.unauthorized ("Authentication failed: " ++ err), st)
    | (uidOpt, none) =>
      match uidOpt with
      | none => (.unauthorized "User not found", st)
      | some uid =>
        match users.find? (fun u => u.id == uid) with
        | none => (.unauthorized "User not found", st)
        | some u =>
          let r := handler u st
          (.handled r.1, r.2)

/-- The claims carried by an access token (`generate_jwt_tokens`); the
constant `type` claim is elided. -/
structure JwtPayload where
  user_id : Nat
  email : String
  exp : Nat
  iat : Nat
deriving DecidableEq, Repr

/-- Executable stand-in for the HS256 signature over the payload with the
server-held secret.  The proofs rely only on the fact that verification
recomputes this exact function of the secret and the payload. -/
def macSign (secret : String) (p : JwtPayload) : Nat :=
  secret.length * 7 + p.user_id * 31 + p.email.length * 13 + p.exp * 131 + p.iat * 257

/-- A signed token: payload plus signature. -/
structure Jwt where
  payload : JwtPayload
  sig : Nat
deriving DecidableEq, Repr

/-- The access-token half of `generate_jwt_tokens`: the payload carries
the user id, the email, `iat = now` and `exp = now + 24h`, signed with
the server secret. -/
def generate_jwt_access (secret : String) (u : UserRec) (now : Nat) : Jwt :=
  let p : JwtPayload := ⟨u.id, u.email, now + 24 * 60 * 60, now⟩
  ⟨p, macSign secret p⟩

/-- `verify_jwt_token` (`users/views.py`): `jwt.decode` checks the
signature first (failure is `InvalidTokenError`, answered as
"Invalid token"), then the registered `exp` claim
(`ExpiredSignatureError`, answered as "Token expired"; the handler
additionally re-checks `exp < time.time()` itself).  On success the
`user_id` claim is returned.  The user table is never consulted: there is
no revocation and no active-flag check here. -/
def verify_jwt_token (secret : String) (now : Nat) (t : Jwt) :
    Option Nat × Option String :=
  if t.sig ≠ macSign secret t.payload then (none, some "Invalid token")
  else if t.payload.exp < now then (none, some "Token expired")
  else (some t.payload.user_id, none)

/-- Python attribute lookup for `classification` on a `Classification`
row: the model declares no such field (its fields are `stage` and
`observations`), so the lookup raises `AttributeError`, modelled as
`none`. -/
def attr_classification (_r : ClassificationRec) : Option String := none

/-- Python attribute lookup for `comment` on a `Classification` row:
no such field exists (it was renamed to `observations`), so the lookup
raises `AttributeError`, modelled as `none`. -/
def attr_comment (_r : ClassificationRec) : Option String := none

/-- The record dictionary the list/detail serializers try to build. -/
structure SerializedCls where
  id : Nat
  image_id : Nat
  classification : String
  comment : String
deriving DecidableEq, Repr

/-- Serialization of one row as written in `get_classification` and the
routed `list_classifications`: it reads `classification.classification`
and `classification.comment`, so it fails on every persisted row. -/
def serializeCls (r : ClassificationRec) : Option SerializedCls :=
  match attr_classification r with
  | none => none
  | some c =>
    match attr_comment r with
    | none => none
    | some cm => some ⟨r.id, r.image, c, cm⟩

def serializeAll : List ClassificationRec → Option (List SerializedCls)
  | [] => some []
  | r :: rs =>
    match serializeCls r, serializeAll rs with
    | some s, some ss => some (s :: ss)
    | _, _ => none

/-- The queryset built by the routed `list_classifications` before
pagination: all rows ordered by `-created_at` (creation order reversed),
optionally narrowed to one image, then the user filter: a non-staff
requester is narrowed to the supplied `user_id` **when one is given** and
to their own rows only otherwise; staff are narrowed only by an explicit
`user_id`. -/
def list_select (st : Store) (requester : UserRec)
    (imageIdFilter : Option Nat) (userIdFilter : Option Nat) :
    List ClassificationRec :=
  let base := st.classifications.reverse
  let base :=
    match imageIdFilter with
    | some i => base.filter (fun c => c.image == i)
    | none => base
  if requester.is_staff = false then
    match userIdFilter with
    | some u => base.filter (fun c => c.user == u)
    | none => base.filter (fun c => c.user == requester.id)
  else
    match userIdFilter with
    | some u => base.filter (fun c => c.user == u)
    | none => base

/-- `Paginator(qs, limit).get_page(page)` for `limit > 0`: page numbers
are 1-based, `num_pages` is at least 1, a page number below 1 falls back
to the last page (`EmptyPage` handling of `get_page`) and one beyond the
end clamps to the last page. -/
def getPage (sel : List ClassificationRec) (page limit : Nat) :
    List ClassificationRec :=
  let numPages := max 1 ((sel.length + limit - 1) / limit)
  let p := if page < 1 then numPages else min page numPages
  (sel.drop ((p - 1) * limit)).take limit

/-- Responses of the routed `list_classifications`. -/
inductive ListClsResp where
  | ok (data : List SerializedCls)
  | serverError
deriving DecidableEq, Repr

def ListClsResp.status : ListClsResp → Nat
  | .ok _ => 200
  | .serverError => 500

/-- The routed `list_classifications` (GET /classifications/list/), after
`jwt_required` has resolved `requester`.  A `classification` query filter
makes `classifications.filter(classification=...)` raise `FieldError`
(no such field), a zero `limit` makes the paginator divide by zero, and
serializing any row raises `AttributeError`; each lands in the blanket
handler as a 500. -/
def list_classifications_endpoint (st : Store) (requester : UserRec)
    (imageIdFilter : Option Nat) (classificationFilter : Option String)
    (userIdFilter : Option Nat) (page limit : Nat) : ListClsResp :=
  if classificationFilter.isSome then .serverError
  else if limit = 0 then .serverError
  else
    let sel := list_select st requester imageIdFilter userIdFilter
    match serializeAll (getPage sel page limit) with
    | some data => .ok data
    | none => .serverError

/-- Responses of `get_classification`. -/
inductive GetClsResp where
  | ok (data : SerializedCls)
  | notFound
  | serverError
deriving DecidableEq, Repr

def GetClsResp.status : GetClsResp → Nat
  | .ok _ => 200
  | .notFound => 404
  | .serverError => 500

/-- `get_classification` (GET /classifications/<id>/), after auth: 404
when the row is absent; otherwise the serializer reads the nonexistent
`classification` attribute and the blanket handler answers 500. -/
def get_classification_endpoint (st : Store) (cid : Nat) : GetClsResp :=
  match st.classifications.find? (fun c => c.id == cid) with
  | none => .notFound
  | some c =>
    match serializeCls c with
    | some s => .ok s
    | none => .serverError

/-- Responses of `update_classification`. -/
inductive UpdateResp where
  | badRequest (msg : String)
  | notFound
  | permissionDenied
  | ok (classificationEcho : String) (commentEcho : String)
  | serverError
deriving DecidableEq, Repr

def UpdateResp.status : UpdateResp → Nat
  | .badRequest _ => 400
  | .notFound => 404
  | .permissionDenied => 403
  | .ok _ _ => 200
  | .serverError => 500

/-- `update_classification` (PUT /classifications/<id>/update/), after
auth.  The body's `classification` and `comment` keys are validated, then
assigned to attributes of those names on the row object — which are not
fields of the model, so `save()` persists no change to `stage` or
`observations` (only the row's `updated_at`, not modelled).  The response
then reads the two attributes back: each read fails with
`AttributeError` (hence 500) unless this very request set it; when both
were supplied the response echoes the transient values while the stored
row is unchanged. -/
def update_classification (actor : UserRec) (cid : Nat)
    (classificationField : Option String) (commentField : Option String)
    (st : Store) : UpdateResp × Store :=
  match st.classifications.find? (fun c => c.id == cid) with
  | none => (.notFound, st)
  | some c =>
    if c.user ≠ actor.id ∧ actor.is_staff = false then (.permissionDenied, st)
    else
      let clsVal := classificationField.getD ""
      let clsGiven := clsVal ≠ ""
      if clsGiven ∧ clsVal ∉ valid_stages then
        (.badRequest "Invalid classification", st)
      else
        if ¬ clsGiven then (.serverError, st)
        else
          match commentField with
          | none => (.serverError, st)
          | some cm => (.ok clsVal cm, st)

/-- One ingestion request to any of the embedded routed upload
endpoints. -/
inductive IngestOp where
  | single (user : Nat) (file : Option UploadedFile)
  | batch (user : Nat) (files : List UploadedFile)
  | b64batch (user : Nat) (items : List B64Payload)
  | withStage (user : Option Nat) (stage : Option String)
      (files : List UploadedFile)
deriving Repr

/-- The store state an ingestion request leaves behind. -/
def applyOp (st : Store) (op : IngestOp) : Store :=
  match op with
  | .single u f => (upload_single_image u f st).2
  | .batch u fs => (upload_batch_images u fs st).2
  | .b64batch u its => (upload_batch_base64_images u its st).2
  | .withStage u s fs => (upload_with_stage u s fs st).2

/-- Stores reachable from the empty store by ingestion requests. -/
def Reachable (st : Store) : Prop :=
  ∃ ops : List IngestOp, st = ops.foldl applyOp emptyStore

/-- The content-hash uniqueness invariant of the image store. -/
def HashUnique (st : Store) : Prop :=
  st.images.Pairwise (fun a b => a.file_hash ≠ b.file_hash)

example : fileExtension "photo.JPG" = ".jpg" := by decide

example : fileExtension "archive" = "" := by decide

example : fileExtension "a.txt" ∉ allowed_extensions := by decide

/-- `filter(file_hash=h).first()` misses exactly when no row carries `h`. -/
theorem findByHash_eq_none_iff (st : Store) (h : String) :
    findByHash st h = none ↔ ∀ img ∈ st.images, img.file_hash ≠ h := by
  simp [findByHash, List.find?_eq_none]

/-- Appending a row whose hash is absent preserves pairwise-distinct
hashes. -/
theorem pairwise_hash_append {l : List ImageRec} {img : ImageRec}
    (hp : l.Pairwise (fun a b => a.file_hash ≠ b.file_hash))
    (hnone : ∀ i ∈ l, i.file_hash ≠ img.file_hash) :
    (l ++ [img]).Pairwise (fun a b => a.file_hash ≠ b.file_hash) := by
  rw [List.pairwise_append]
  refine ⟨hp, List.pairwise_singleton _ _, ?_⟩
  intro a ha b hb
  have hb' : b = img := by simpa using hb
  subst hb'
  exact hnone a ha

/-- Folding a step that preserves a predicate preserves it. -/
theorem foldl_preserve {α β : Type} (P : β → Prop) (step : β → α → β)
    (hstep : ∀ b a, P b → P (step b a)) :
    ∀ (l : List α) (b : β), P b → P (l.foldl step b) := by
  intro l
  induction l with
  | nil => intro b hb; exact hb
  | cons a t ih => intro b hb; exact ih _ (hstep b a hb)

/-- A failed `find?` over a prefix passes through an append. -/
theorem find?_append_of_none {α : Type} (p : α → Bool) {l₁ : List α}
    (l₂ : List α) (h : l₁.find? p = none) :
    (l₁ ++ l₂).find? p = l₂.find? p := by
  induction l₁ with
  | nil => rfl
  | cons a t ih =>
    rcases hpa : p a with _ | _
    · rw [List.find?_cons_of_neg _ (by simp [hpa])] at h
      rw [List.cons_append, List.find?_cons_of_neg _ (by simp [hpa])]
      exact ih h
    · rw [List.find?_cons_of_pos _ hpa] at h
      exact absurd h (by simp)

/-- Under pairwise-distinct hashes, a successful hash lookup pins the
filtered row set to exactly one element. -/
theorem filter_hash_length_one {l : List ImageRec} {h : String} {ex : ImageRec}
    (hp : l.Pairwise (fun a b => a.file_hash ≠ b.file_hash))
    (hf : l.find? (fun i => i.file_hash == h) = some ex) :
    (l.filter (fun i => i.file_hash == h)).length = 1 := by
  induction l with
  | nil => simp at hf
  | cons a t ih =>
    rw [List.pairwise_cons] at hp
    rcases hpa : (a.file_hash == h) with _ | _
    · rw [List.find?_cons_of_neg _ (by simp [hpa])] at hf
      rw [List.filter_cons_of_neg (by simp [hpa])]
      exact ih hp.2 hf
    · rw [List.filter_cons_of_pos (by simp [hpa])]
      have hah : a.file_hash = h := by simpa using hpa
      have : t.filter (fun i => i.file_hash == h) = [] := by
        rw [List.filter_eq_nil_iff]
        intro b hb
        have := hp.1 b hb
        simp only [beq_iff_eq]
        rw [← hah]
        exact fun hbh => this hbh.symm
      simp [this]

@[simp] theorem save_uploaded_file_images (st : Store) (f : UploadedFile)
    (h : String) : (save_uploaded_file st f h).2.images = st.images := rfl

@[simp] theorem save_uploaded_file_nextImageId (st : Store) (f : UploadedFile)
    (h : String) : (save_uploaded_file st f h).2.nextImageId = st.nextImageId := rfl

@[simp] theorem save_uploaded_file_classifications (st : Store)
    (f : UploadedFile) (h : String) :
    (save_uploaded_file st f h).2.classifications = st.classifications := rfl

@[simp] theorem save_uploaded_file_nextClsId (st : Store) (f : UploadedFile)
    (h : String) : (save_uploaded_file st f h).2.nextClsId = st.nextClsId := rfl

@[simp] theorem save_image_from_content_images (st : Store) (h fn : String) :
    (save_image_from_content st h fn).2.images = st.images := rfl

@[simp] theorem save_image_from_content_nextImageId (st : Store)
    (h fn : String) :
    (save_image_from_content st h fn).2.nextImageId = st.nextImageId := rfl

theorem processBatchFile_preserves (u : Nat) (acc : List BatchItem × Store)
    (f : UploadedFile) (hinv : HashUnique acc.2) :
    HashUnique (processBatchFile u acc f).2 := by
  obtain ⟨up, st⟩ := acc
  unfold processBatchFile
  dsimp only at hinv ⊢
  by_cases h1 : fileExtension f.name ∈ allowed_extensions
  · rw [if_neg (not_not_intro h1)]
    by_cases h2 : f.content.length > max_size
    · rw [if_pos h2]; exact hinv
    · rw [if_neg h2]
      rcases hfind : findByHash st (sha256Hex f.content) with _ | ex
      · simp only [hfind, HashUnique, save_uploaded_file_images]
        exact pairwise_hash_append hinv ((findByHash_eq_none_iff _ _).1 hfind)
      · simp only [hfind]
        exact hinv
  · rw [if_pos h1]; exact hinv

theorem b64Step_some_eq (u : Nat) (results : List B64ItemResult) (errs : Nat)
    (st : Store) (bs : Bytes) (fn : String) :
    b64Step u (results, errs, st) ⟨some bs, fn⟩ =
      if bs.length > max_size then (results, errs + 1, st)
      else
        match findByHash st (sha256Hex bs) with
        | some ex => (results ++ [.duplicate ex.id], errs, st)
        | none =>
          let ps := save_image_from_content st (sha256Hex bs) fn
          let img : ImageRec :=
            ⟨ps.2.nextImageId, ps.1, sha256Hex bs, fn, bs.length, some u⟩
          (results ++ [.success img.id], errs,
            { ps.2 with images := ps.2.images ++ [img],
                        nextImageId := ps.2.nextImageId + 1 }) := rfl

theorem b64Step_preserves (u : Nat) (acc : List B64ItemResult × Nat × Store)
    (item : B64Payload) (hinv : HashUnique acc.2.2) :
    HashUnique (b64Step u acc item).2.2 := by
  obtain ⟨results, errs, st⟩ := acc
  obtain ⟨d, fn⟩ := item
  rcases d with _ | bs
  · exact hinv
  · rw [b64Step_some_eq]
    by_cases h1 : bs.length > max_size
    · rw [if_pos h1]; exact hinv
    · rw [if_neg h1]
      rcases hfind : findByHash st (sha256Hex bs) with _ | ex
      · simp only [hfind, HashUnique, save_image_from_content_images]
        exact pairwise_hash_append hinv ((findByHash_eq_none_iff _ _).1 hfind)
      · simp only [hfind]
        exact hinv

theorem stageStep_preserves (user : Option Nat) (sv : String)
    (acc : List BatchItem × List ClassifiedItem × Store) (f : UploadedFile)
    (hinv : HashUnique acc.2.2) :
    HashUnique (stageStep user sv acc f).2.2 := by
  obtain ⟨up, cl, st⟩ := acc
  unfold stageStep
  dsimp only at hinv ⊢
  by_cases h1 : fileExtension f.name ∈ allowed_extensions
  · rw [if_neg (not_not_intro h1)]
    by_cases h2 : f.content.length > max_size
    · rw [if_pos h2]; exact hinv
    · rw [if_neg h2]
      rcases hfind : findByHash st (sha256Hex f.content) with _ | ex
      · simp only [hfind]
        rcases user with _ | uid
        · exact hinv
        · simp only [HashUnique, save_uploaded_file_images]
          exact pairwise_hash_append hinv ((findByHash_eq_none_iff _ _).1 hfind)
      · simp only [hfind]
        rcases user with _ | uid
        · exact hinv
        · exact hinv
  · rw [if_pos h1]; exact hinv

theorem upload_single_image_preserves (u : Nat) (file : Option UploadedFile)
    (st : Store) (hinv : HashUnique st) :
    HashUnique (upload_single_image u file st).2 := by
  rcases file with _ | f
  · exact hinv
  · unfold upload_single_image
    dsimp only
    by_cases h1 : fileExtension f.name ∈ allowed_extensions
    · rw [if_neg (not_not_intro h1)]
      by_cases h2 : f.content.length > max_size
      · rw [if_pos h2]; exact hinv
      · rw [if_neg h2]
        rcases hfind : findByHash st (sha256Hex f.content) with _ | ex
        · simp only [hfind, HashUnique, save_uploaded_file_images]
          exact pairwise_hash_append hinv ((findByHash_eq_none_iff _ _).1 hfind)
        · simp only [hfind]
          exact hinv
    · rw [if_pos h1]; exact hinv

theorem upload_batch_images_preserves (u : Nat) (files : List UploadedFile)
    (st : Store) (hinv : HashUnique st) :
    HashUnique (upload_batch_images u files st).2 := by
  unfold upload_batch_images
  split_ifs with h1
  · exact hinv
  · exact foldl_preserve (fun acc => HashUnique acc.2) (processBatchFile u)
      (fun b a hb => processBatchFile_preserves u b a hb) files ([], st) hinv

theorem upload_batch_base64_images_preserves (u : Nat)
    (items : List B64Payload) (st : Store) (hinv : HashUnique st) :
    HashUnique (upload_batch_base64_images u items st).2 := by
  unfold upload_batch_base64_images
  split_ifs with h1 h2
  · exact hinv
  · exact hinv
  · exact foldl_preserve (fun acc => HashUnique acc.2.2) (b64Step u)
      (fun b a hb => b64Step_preserves u b a hb) items ([], 0, st) hinv

theorem upload_with_stage_preserves (user : Option Nat)
    (stage : Option String) (files : List UploadedFile) (st : Store)
    (hinv : HashUnique st) :
    HashUnique (upload_with_stage user stage files st).2 := by
  rcases stage with _ | sv
  · exact hinv
  · unfold upload_with_stage
    dsimp only
    by_cases h1 : sv ∈ valid_stages
    · rw [if_neg (not_not_intro h1)]
      by_cases h2 : files = []
      · rw [if_pos h2]; exact hinv
      · rw [if_neg h2]
        have hfold := foldl_preserve (fun acc => HashUnique acc.2.2)
          (stageStep user sv)
          (fun b a hb => stageStep_preserves user sv b a hb) files ([], [], st)
          hinv
        rcases user with _ | uid
        · exact hfold
        · exact hfold
    · rw [if_pos h1]; exact hinv

theorem applyOp_preserves (st : Store) (op : IngestOp)
    (hinv : HashUnique st) : HashUnique (applyOp st op) := by
  cases op with
  | single u f => exact upload_single_image_preserves u f st hinv
  | batch u fs => exact upload_batch_images_preserves u fs st hinv
  | b64batch u its => exact upload_batch_base64_images_preserves u its st hinv
  | withStage u s fs => exact upload_with_stage_preserves u s fs st hinv

/-- C2: no sequence of ingestion requests ever produces a store holding
two `Image` rows with equal content hashes — every handler looks the hash
up and inserts only on a miss, so the pairwise-distinct-hash invariant is
preserved from the empty store by every routed upload endpoint. -/
theorem C2_hash_unique (st : Store) (hreach : Reachable st) : HashUnique st := by
  obtain ⟨ops, rfl⟩ := hreach
  exact foldl_preserve HashUnique applyOp
    (fun b a hb => applyOp_preserves b a hb) ops emptyStore List.Pairwise.nil

theorem C2_hash_unique_witness :
    Reachable (applyOp (applyOp emptyStore
        (.single 1 (some ⟨"a.jpg", [1]⟩))) (.batch 1 [⟨"b.png", [2]⟩])) ∧
    HashUnique (applyOp (applyOp emptyStore
        (.single 1 (some ⟨"a.jpg", [1]⟩))) (.batch 1 [⟨"b.png", [2]⟩])) :=
  ⟨⟨[.single 1 (some ⟨"a.jpg", [1]⟩), .batch 1 [⟨"b.png", [2]⟩]], rfl⟩,
   C2_hash_unique _
     ⟨[.single 1 (some ⟨"a.jpg", [1]⟩), .batch 1 [⟨"b.png", [2]⟩]], rfl⟩⟩

theorem upload_single_image_some (u : Nat) (f : UploadedFile) (st : Store) :
    upload_single_image u (some f) st =
      if fileExtension f.name ∉ allowed_extensions then
        (.badRequest "File type not allowed", st)
      else if f.content.length > max_size then
        (.badRequest "File too large. Maximum size is 10MB", st)
      else
        match findByHash st (sha256Hex f.content) with
        | some existing =>
          (.imageOk existing.id (MEDIA_URL ++ existing.file_path), st)
        | none =>
          let ps := save_uploaded_file st f (sha256Hex f.content)
          let img : ImageRec :=
            ⟨ps.2.nextImageId, ps.1, sha256Hex f.content, f.name,
              f.content.length, some u⟩
          (.imageOk img.id (MEDIA_URL ++ ps.1),
            { ps.2 with images := ps.2.images ++ [img],
                        nextImageId := ps.2.nextImageId + 1 }) := rfl

/-- The row the single-upload insert path creates. -/
def insertedImage (u : Nat) (f : UploadedFile) (st : Store) : ImageRec :=
  ⟨st.nextImageId, (save_uploaded_file st f (sha256Hex f.content)).1,
    sha256Hex f.content, f.name, f.content.length, some u⟩

/-- The store the single-upload insert path leaves behind. -/
def insertedStore (u : Nat) (f : UploadedFile) (st : Store) : Store :=
  { (save_uploaded_file st f (sha256Hex f.content)).2 with
      images := st.images ++ [insertedImage u f st],
      nextImageId := st.nextImageId + 1 }

theorem upload_single_dedup_hit (u : Nat) (f : UploadedFile) (st : Store)
    (ex : ImageRec) (hext : fileExtension f.name ∈ allowed_extensions)
    (hsz : ¬ f.content.length > max_size)
    (hfind : findByHash st (sha256Hex f.content) = some ex) :
    upload_single_image u (some f) st
      = (.imageOk ex.id (MEDIA_URL ++ ex.file_path), st) := by
  rw [upload_single_image_some, if_neg (not_not_intro hext), if_neg hsz, hfind]

theorem upload_single_insert_eq (u : Nat) (f : UploadedFile) (st : Store)
    (hext : fileExtension f.name ∈ allowed_extensions)
    (hsz : ¬ f.content.length > max_size)
    (hfind : findByHash st (sha256Hex f.content) = none) :
    upload_single_image u (some f) st
      = (.imageOk st.nextImageId
            (MEDIA_URL ++ (save_uploaded_file st f (sha256Hex f.content)).1),
          insertedStore u f st) := by
  rw [upload_single_image_some, if_neg (not_not_intro hext), if_neg hsz, hfind]
  rfl

theorem findByHash_insertedStore (u : Nat) (f : UploadedFile) (st : Store)
    (hfind : findByHash st (sha256Hex f.content) = none) :
    findByHash (insertedStore u f st) (sha256Hex f.content)
      = some (insertedImage u f st) := by
  show (st.images ++ [insertedImage u f st]).find?
      (fun i => i.file_hash == sha256Hex f.content) = _
  rw [find?_append_of_none _ _ hfind,
    List.find?_cons_of_pos _ (by simp [insertedImage])]

/-- C1 (amended): ingestion is idempotent for identical bytes provided the
second request's declared filename also passes the extension allow-list:
the second call answers with the first call's image id, mutates neither
the row set nor the blob sink, and the store holds exactly one row with
the content's hash.  (As stated over *arbitrary* filenames the claim
fails: the extension check runs before the dedup lookup, see the
counterexample.) -/
theorem C1_idempotent_ingest (u₁ u₂ : Nat) (f₁ f₂ : UploadedFile) (st : Store)
    (hinv : HashUnique st)
    (hsame : f₂.content = f₁.content)
    (hext : fileExtension f₂.name ∈ allowed_extensions)
    (h1 : isImageOk (upload_single_image u₁ (some f₁) st).1 = true) :
    isImageOk (upload_single_image u₂ (some f₂)
        (upload_single_image u₁ (some f₁) st).2).1 = true ∧
    respId (upload_single_image u₂ (some f₂)
        (upload_single_image u₁ (some f₁) st).2).1
      = respId (upload_single_image u₁ (some f₁) st).1 ∧
    (upload_single_image u₂ (some f₂)
        (upload_single_image u₁ (some f₁) st).2).2
      = (upload_single_image u₁ (some f₁) st).2 ∧
    ((upload_single_image u₁ (some f₁) st).2.images.filter
        (fun img => img.file_hash == sha256Hex f₁.content)).length = 1 := by
  have hh : sha256Hex f₂.content = sha256Hex f₁.content := by rw [hsame]
  by_cases hext1 : fileExtension f₁.name ∈ allowed_extensions
  · by_cases hsz : f₁.content.length > max_size
    · rw [upload_single_image_some, if_neg (not_not_intro hext1),
        if_pos hsz] at h1
      simp [isImageOk] at h1
    · have hsz2 : ¬ f₂.content.length > max_size := by rw [hsame]; exact hsz
      rcases hfind : findByHash st (sha256Hex f₁.content) with _ | ex
      · have e1 := upload_single_insert_eq u₁ f₁ st hext1 hsz hfind
        have hf2 := findByHash_insertedStore u₁ f₁ st hfind
        have e2 : upload_single_image u₂ (some f₂) (insertedStore u₁ f₁ st)
            = (.imageOk (insertedImage u₁ f₁ st).id
                (MEDIA_URL ++ (insertedImage u₁ f₁ st).file_path),
              insertedStore u₁ f₁ st) := by
          apply upload_single_dedup_hit u₂ f₂ _ _ hext hsz2
          rw [hh]
          exact hf2
        have hinv1 : HashUnique (insertedStore u₁ f₁ st) := by
          have hp := upload_single_image_preserves u₁ (some f₁) st hinv
          rw [e1] at hp
          exact hp
        rw [e1]
        dsimp only
        rw [e2]
        refine ⟨rfl, rfl, rfl, ?_⟩
        exact filter_hash_length_one hinv1 hf2
      · have e1 := upload_single_dedup_hit u₁ f₁ st ex hext1 hsz hfind
        have e2 : upload_single_image u₂ (some f₂) st
            = (.imageOk ex.id (MEDIA_URL ++ ex.file_path), st) := by
          apply upload_single_dedup_hit u₂ f₂ _ _ hext hsz2
          rw [hh]
          exact hfind
        rw [e1]
        dsimp only
        rw [e2]
        refine ⟨rfl, rfl, rfl, ?_⟩
        exact filter_hash_length_one hinv hfind
  · rw [upload_single_image_some, if_pos hext1] at h1
    simp [isImageOk] at h1

theorem C1_idempotent_ingest_witness :
    isImageOk (upload_single_image 2 (some ⟨"copy.JPG", [1, 2]⟩)
        (upload_single_image 1 (some ⟨"a.jpg", [1, 2]⟩) emptyStore).2).1 = true ∧
    respId (upload_single_image 2 (some ⟨"copy.JPG", [1, 2]⟩)
        (upload_single_image 1 (some ⟨"a.jpg", [1, 2]⟩) emptyStore).2).1
      = respId (upload_single_image 1 (some ⟨"a.jpg", [1, 2]⟩) emptyStore).1 ∧
    (upload_single_image 2 (some ⟨"copy.JPG", [1, 2]⟩)
        (upload_single_image 1 (some ⟨"a.jpg", [1, 2]⟩) emptyStore).2).2
      = (upload_single_image 1 (some ⟨"a.jpg", [1, 2]⟩) emptyStore).2 ∧
    ((upload_single_image 1 (some ⟨"a.jpg", [1, 2]⟩) emptyStore).2.images.filter
        (fun img => img.file_hash == sha256Hex [1, 2])).length = 1 :=
  C1_idempotent_ingest 1 2 ⟨"a.jpg", [1, 2]⟩ ⟨"copy.JPG", [1, 2]⟩ emptyStore
    List.Pairwise.nil rfl (by decide) (by decide)

theorem C1_counterexample :
    isImageOk (upload_single_image 1 (some ⟨"a.jpg", [1, 2]⟩) emptyStore).1 = true ∧
    isImageOk (upload_single_image 1 (some ⟨"a.txt", [1, 2]⟩)
        (upload_single_image 1 (some ⟨"a.jpg", [1, 2]⟩) emptyStore).2).1 = false ∧
    (upload_single_image 1 (some ⟨"a.txt", [1, 2]⟩)
        (upload_single_image 1 (some ⟨"a.jpg", [1, 2]⟩) emptyStore).2).1.status
      = 400 := by decide

/-- C3 (amended): a uniqueness violation on the insert path — the content
hash slipping into the table between the dedup lookup and the insert — is
**not** converted into a dedup hit: the `IntegrityError` reaches the
blanket handler and the request fails with HTTP 500; no row is inserted
and the existing winning row is not returned.  Only duplicates seen by
the pre-insert lookup produce the dedup-hit success. -/
theorem C3_conflict_surfaces_500 (u : Nat) (f : UploadedFile) (st : Store)
    (delta : List ImageRec)
    (hext : fileExtension f.name ∈ allowed_extensions)
    (hsz : ¬ f.content.length > max_size)
    (hmiss : findByHash st (sha256Hex f.content) = none)
    (hconf : delta.any (fun r => r.file_hash == sha256Hex f.content) = true) :
    (upload_single_image_concurrent u f st delta).1 = .serverError ∧
    SingleResp.status (upload_single_image_concurrent u f st delta).1 = 500 ∧
    (upload_single_image_concurrent u f st delta).2.images
      = st.images ++ delta := by
  have e : upload_single_image_concurrent u f st delta
      = (.serverError,
        (save_uploaded_file { st with images := st.images ++ delta } f
          (sha256Hex f.content)).2) := by
    unfold upload_single_image_concurrent
    rw [if_neg (not_not_intro hext), if_neg hsz]
    dsimp only
    rw [hmiss]
    dsimp only
    rw [if_pos hconf]
  rw [e]
  exact ⟨rfl, rfl, rfl⟩

theorem C3_conflict_surfaces_500_witness :
    (upload_single_image_concurrent 1 ⟨"a.jpg", [1]⟩ emptyStore
        [⟨5, "images/257.jpg", sha256Hex [1], "b.jpg", 1, some 2⟩]).1
      = .serverError ∧
    SingleResp.status (upload_single_image_concurrent 1 ⟨"a.jpg", [1]⟩
        emptyStore [⟨5, "images/257.jpg", sha256Hex [1], "b.jpg", 1, some 2⟩]).1
      = 500 ∧
    (upload_single_image_concurrent 1 ⟨"a.jpg", [1]⟩ emptyStore
        [⟨5, "images/257.jpg", sha256Hex [1], "b.jpg", 1, some 2⟩]).2.images
      = emptyStore.images ++ [⟨5, "images/257.jpg", sha256Hex [1], "b.jpg", 1, some 2⟩] :=
  C3_conflict_surfaces_500 1 ⟨"a.jpg", [1]⟩ emptyStore
    [⟨5, "images/257.jpg", sha256Hex [1], "b.jpg", 1, some 2⟩]
    (by decide) (by decide) (by decide) (by decide)

theorem C3_counterexample :
    isImageOk (upload_single_image_concurrent 1 ⟨"a.jpg", [1]⟩ emptyStore
        [⟨5, "images/257.jpg", sha256Hex [1], "b.jpg", 1, some 2⟩]).1 = false ∧
    (upload_single_image_concurrent 1 ⟨"a.jpg", [1]⟩ emptyStore
        [⟨5, "images/257.jpg", sha256Hex [1], "b.jpg", 1, some 2⟩]).1
      = .serverError := by decide

/-- C4 (amended): the more-than-20-items whole-batch rejection holds for
the base64 batch endpoint, which fails with a 400 before any item is
processed and leaves the store untouched; the routed multipart batch
endpoint (`POST /images/upload/`) imposes **no cap** and answers 201 for
any nonempty file list, processing every element. -/
theorem C4_batch_cap (u : Nat) (items : List B64Payload)
    (files : List UploadedFile) (st : Store) :
    (items.length > 20 →
      upload_batch_base64_images u items st
        = (.badRequest "Too many images. Maximum 20 images per batch", st)) ∧
    (files ≠ [] → (upload_batch_images u files st).1.status = 201) := by
  constructor
  · intro hgt
    have hne : items ≠ [] := by
      intro h
      rw [h] at hgt
      simp at hgt
    unfold upload_batch_base64_images
    rw [if_neg hne, if_pos hgt]
  · intro hne
    unfold upload_batch_images
    rw [if_neg hne]
    rfl

theorem C4_batch_cap_witness :
    upload_batch_base64_images 1
        ((List.range 21).map (fun i => (⟨some [i], "a.jpg"⟩ : B64Payload)))
        emptyStore
      = (.badRequest "Too many images. Maximum 20 images per batch",
         emptyStore) ∧
    (upload_batch_images 1 [⟨"a.jpg", [1]⟩] emptyStore).1.status = 201 :=
  ⟨(C4_batch_cap 1 ((List.range 21).map
      (fun i => (⟨some [i], "a.jpg"⟩ : B64Payload)))
      [⟨"a.jpg", [1]⟩] emptyStore).1 (by decide),
   (C4_batch_cap 1 ((List.range 21).map
      (fun i => (⟨some [i], "a.jpg"⟩ : B64Payload)))
      [⟨"a.jpg", [1]⟩] emptyStore).2 (by decide)⟩

theorem C4_counterexample :
    batchRespCount (upload_batch_images 1
        ((List.range 21).map (fun i => (⟨"a.jpg", [i]⟩ : UploadedFile)))
        emptyStore).1 = 21 ∧
    (upload_batch_images 1
        ((List.range 21).map (fun i => (⟨"a.jpg", [i]⟩ : UploadedFile)))
        emptyStore).2.images.length = 21 ∧
    (upload_batch_images 1
        ((List.range 21).map (fun i => (⟨"a.jpg", [i]⟩ : UploadedFile)))
        emptyStore).1.status = 201 := by decide

/-- C5 (amended): every upload, classification and listing endpoint
**except** `POST /images/upload/with-stage/` runs behind `jwt_required`,
which answers HTTP 401 and mutates nothing whenever the Authorization
header is absent or malformed (does not start with `Bearer `).  The
with-stage view carries no authentication check and never answers 401:
a request failing stage validation is answered 400, and an
unauthenticated request passing validation fails with 500 when the
success log line reads `request.user.name` on the anonymous user — a 201
is unreachable unauthenticated. -/
theorem C5_auth_required {R : Type} (statusOf : R → Nat)
    (verify : String → Option Nat × Option String) (users : List UserRec)
    (header : String) (handler : UserRec → Store → R × Store) (st : Store)
    (sv : String) (files : List UploadedFile)
    (hmal : strStartsWith header "Bearer " = false)
    (hsv : sv ∈ valid_stages) (hfe : files ≠ []) :
    jwt_required verify users header handler st
      = (.unauthorized "Authorization header missing or invalid format", st) ∧
    Gated.status statusOf (jwt_required verify users header handler st).1
      = 401 ∧
    (upload_with_stage none none files st).1.status = 400 ∧
    (upload_with_stage none (some sv) files st).1 = .serverError ∧
    (upload_with_stage none (some sv) files st).1.status = 500 := by
  have e : jwt_required verify users header handler st
      = (.unauthorized "Authorization header missing or invalid format", st) := by
    unfold jwt_required
    rw [if_pos hmal]
  have e2 : (upload_with_stage none (some sv) files st).1 = .serverError := by
    unfold upload_with_stage
    dsimp only
    rw [if_neg (not_not_intro hsv), if_neg hfe]
  rw [e]
  refine ⟨rfl, rfl, rfl, e2, ?_⟩
  rw [e2]
  rfl

theorem C5_auth_required_witness :
    jwt_required (fun _ => (none, some "Invalid token")) [] "Token abc"
        (fun u stx => upload_single_image u.id none stx) emptyStore
      = (.unauthorized "Authorization header missing or invalid format",
         emptyStore) ∧
    Gated.status SingleResp.status
      (jwt_required (fun _ => (none, some "Invalid token")) [] "Token abc"
        (fun u stx => upload_single_image u.id none stx) emptyStore).1
      = 401 ∧
    (upload_with_stage none none [⟨"a.jpg", [1]⟩] emptyStore).1.status
      = 400 ∧
    (upload_with_stage none (some "stage1") [⟨"a.jpg", [1]⟩] emptyStore).1
      = .serverError ∧
    (upload_with_stage none (some "stage1") [⟨"a.jpg", [1]⟩]
        emptyStore).1.status = 500 :=
  C5_auth_required SingleResp.status (fun _ => (none, some "Invalid token"))
    [] "Token abc" (fun u stx => upload_single_image u.id none stx)
    emptyStore "stage1" [⟨"a.jpg", [1]⟩] (by decide) (by decide) (by decide)

theorem C5_counterexample :
    (upload_with_stage none none [] emptyStore).1.status = 400 ∧
    (upload_with_stage none none [] emptyStore)
      = (.badRequest "Stage parameter is required", emptyStore) ∧
    (upload_with_stage none (some "stage1") [⟨"a.jpg", [1]⟩] emptyStore)
      = (.serverError, { emptyStore with files := ["images/257.jpg"] }) := by
  decide

theorem filter_user_all (l : List ClassificationRec) (x : Nat) :
    (l.filter (fun c => c.user == x)).all (fun c => c.user == x) = true := by
  rw [List.all_eq_true]
  intro a ha
  exact (List.mem_filter.1 ha).2

/-- C6 (amended): the queryset the routed `list_classifications` builds
for a non-staff requester is restricted to the requester's own rows only
when **no** `user_id` filter is supplied; when the request carries a
`user_id` filter, the selection is that user's rows — also when the id
names a different user (see the counterexample to the claim as stated). -/
theorem C6_nonadmin_selection (st : Store) (requester : UserRec)
    (imageIdFilter : Option Nat) (uf : Nat)
    (hstaff : requester.is_staff = false) :
    (list_select st requester imageIdFilter none).all
        (fun c => c.user == requester.id) = true ∧
    (list_select st requester imageIdFilter (some uf)).all
        (fun c => c.user == uf) = true := by
  constructor
  · unfold list_select
    dsimp only
    rw [if_pos hstaff]
    exact filter_user_all _ _
  · unfold list_select
    dsimp only
    rw [if_pos hstaff]
    exact filter_user_all _ _

theorem C6_nonadmin_selection_witness :
    (list_select { emptyStore with classifications := [⟨1, 1, 5, "stage1", "x"⟩] }
        ⟨1, "u@e.co", true, false⟩ none none).all
        (fun c => c.user == 1) = true ∧
    (list_select { emptyStore with classifications := [⟨1, 1, 5, "stage1", "x"⟩] }
        ⟨1, "u@e.co", true, false⟩ none (some 1)).all
        (fun c => c.user == 1) = true :=
  C6_nonadmin_selection
    { emptyStore with classifications := [⟨1, 1, 5, "stage1", "x"⟩] }
    ⟨1, "u@e.co", true, false⟩ none 1 rfl

theorem C6_counterexample :
    (list_select { emptyStore with classifications := [⟨1, 2, 5, "stage1", "x"⟩] }
        ⟨1, "u@e.co", true, false⟩ none (some 2))
      = [⟨1, 2, 5, "stage1", "x"⟩] ∧
    (list_select { emptyStore with classifications := [⟨1, 2, 5, "stage1", "x"⟩] }
        ⟨1, "u@e.co", true, false⟩ none (some 2)).all
        (fun c => c.user == 1) = false := by decide

/-- C7: the claim is right and the code is wrong.  `update_classification`
assigns the request's values to attributes named `classification` and
`comment`, which are not fields of the model (the fields are `stage` and
`observations`), so `save()` persists no change: a permitted update with
both keys answers 200 echoing the transient values while the stored row
keeps its old `stage` and `observations`; a request omitting either key
trips an `AttributeError` in the response serializer and answers 500. -/
theorem C7_update_persists_nothing :
    update_classification ⟨1, "u@e.co", true, false⟩ 1 (some "stage2")
        (some "new")
        { emptyStore with classifications := [⟨1, 1, 1, "stage1", "old"⟩] }
      = (.ok "stage2" "new",
         { emptyStore with classifications := [⟨1, 1, 1, "stage1", "old"⟩] }) ∧
    update_classification ⟨1, "u@e.co", true, false⟩ 1 none none
        { emptyStore with classifications := [⟨1, 1, 1, "stage1", "old"⟩] }
      = (.serverError,
         { emptyStore with classifications := [⟨1, 1, 1, "stage1", "old"⟩] }) := by
  decide

/-- C9: token verification round-trips with issuance and is all-or-nothing:
any access token issued for a user verifies to that user's id at any time
up to the 24-hour expiry — independently of the user's `is_active` flag,
which `verify_jwt_token` never consults (the quantified `u` carries an
arbitrary flag); past expiry it fails with "Token expired"; a token whose
signature does not match the secret fails with "Invalid token". -/
theorem C9_token_roundtrip (secret : String) (u : UserRec) (iat now : Nat)
    (t : Jwt) :
    (now ≤ iat + 24 * 60 * 60 →
      verify_jwt_token secret now (generate_jwt_access secret u iat)
        = (some u.id, none)) ∧
    (iat + 24 * 60 * 60 < now →
      verify_jwt_token secret now (generate_jwt_access secret u iat)
        = (none, some "Token expired")) ∧
    (t.sig ≠ macSign secret t.payload →
      verify_jwt_token secret now t = (none, some "Invalid token")) := by
  refine ⟨?_, ?_, ?_⟩
  · intro hb
    unfold verify_jwt_token generate_jwt_access
    dsimp only
    rw [if_neg (fun hne => hne rfl), if_neg (by omega)]
  · intro ha
    unfold verify_jwt_token generate_jwt_access
    dsimp only
    rw [if_neg (fun hne => hne rfl), if_pos (by omega)]
  · intro hs
    unfold verify_jwt_token
    rw [if_pos hs]

theorem C9_token_roundtrip_witness :
    verify_jwt_token "k" 100
        (generate_jwt_access "k" ⟨7, "ab@c.de", false, false⟩ 0)
      = (some 7, none) ∧
    verify_jwt_token "k" 90000
        (generate_jwt_access "k" ⟨7, "ab@c.de", false, false⟩ 0)
      = (none, some "Token expired") ∧
    verify_jwt_token "k" 100 ⟨⟨7, "ab@c.de", 86400, 0⟩, 0⟩
      = (none, some "Invalid token") :=
  ⟨(C9_token_roundtrip "k" ⟨7, "ab@c.de", false, false⟩ 0 100
      ⟨⟨7, "ab@c.de", 86400, 0⟩, 0⟩).1 (by decide),
   (C9_token_roundtrip "k" ⟨7, "ab@c.de", false, false⟩ 0 90000
      ⟨⟨7, "ab@c.de", 86400, 0⟩, 0⟩).2.1 (by decide),
   (C9_token_roundtrip "k" ⟨7, "ab@c.de", false, false⟩ 0 100
      ⟨⟨7, "ab@c.de", 86400, 0⟩, 0⟩).2.2 (by decide)⟩

def stageClassified : StageResp → List ClassifiedItem
  | .badRequest _ => []
  | .ok _ _ c => c
  | .serverError => []

/-- The store left behind when the with-stage loop ingests a fresh file
and attaches its classification. -/
def stageInsertedStore (uid : Nat) (sv : String) (f : UploadedFile)
    (st : Store) : Store :=
  { (save_uploaded_file st f (sha256Hex f.content)).2 with
      images := st.images ++
        [⟨st.nextImageId, (save_uploaded_file st f (sha256Hex f.content)).1,
          sha256Hex f.content, f.name, f.content.length, some uid⟩],
      nextImageId := st.nextImageId + 1,
      classifications := st.classifications ++
        [⟨st.nextClsId, uid, st.nextImageId, sv, ""⟩],
      nextClsId := st.nextClsId + 1 }

theorem stageStep_fresh_eq (uid : Nat) (sv : String) (up : List BatchItem)
    (cl : List ClassifiedItem) (st : Store) (f : UploadedFile)
    (hext : fileExtension f.name ∈ allowed_extensions)
    (hsz : ¬ f.content.length > max_size)
    (hfind : findByHash st (sha256Hex f.content) = none) :
    stageStep (some uid) sv (up, cl, st) f =
      (up ++ [.uploadedNew st.nextImageId
          (MEDIA_URL ++ (save_uploaded_file st f (sha256Hex f.content)).1)],
       cl ++ [⟨st.nextClsId, st.nextImageId, sv⟩],
       stageInsertedStore uid sv f st) := by
  unfold stageStep
  dsimp only
  rw [if_neg (not_not_intro hext), if_neg hsz, hfind]
  rfl

theorem stageStep_dup_eq (uid : Nat) (sv : String) (up : List BatchItem)
    (cl : List ClassifiedItem) (st : Store) (f : UploadedFile) (ex : ImageRec)
    (hext : fileExtension f.name ∈ allowed_extensions)
    (hsz : ¬ f.content.length > max_size)
    (hfind : findByHash st (sha256Hex f.content) = some ex) :
    stageStep (some uid) sv (up, cl, st) f =
      (up ++ [.existing ex.id (MEDIA_URL ++ ex.file_path)],
       cl ++ [⟨st.nextClsId, ex.id, sv⟩],
       { st with
          classifications :=
            st.classifications ++ [⟨st.nextClsId, uid, ex.id, sv, ""⟩],
          nextClsId := st.nextClsId + 1 }) := by
  unfold stageStep
  dsimp only
  rw [if_neg (not_not_intro hext), if_neg hsz, hfind]

theorem find?_hash_append_one (l : List ImageRec) (img : ImageRec)
    (h : String) (h0 : l.find? (fun i => i.file_hash == h) = none)
    (hne : img.file_hash ≠ h) :
    (l ++ [img]).find? (fun i => i.file_hash == h) = none := by
  rw [find?_append_of_none _ _ h0,
    List.find?_cons_of_neg _ (by simp [hne]), List.find?_nil]

theorem stageInsertedStore_images (uid : Nat) (sv : String)
    (f : UploadedFile) (st : Store) :
    (stageInsertedStore uid sv f st).images
      = st.images ++
        [⟨st.nextImageId, (save_uploaded_file st f (sha256Hex f.content)).1,
          sha256Hex f.content, f.name, f.content.length, some uid⟩] := rfl

theorem stageInsertedStore_classifications (uid : Nat) (sv : String)
    (f : UploadedFile) (st : Store) :
    (stageInsertedStore uid sv f st).classifications
      = st.classifications ++ [⟨st.nextClsId, uid, st.nextImageId, sv, ""⟩] := rfl

theorem findByHash_stageInsertedStore_none (uid : Nat) (sv : String)
    (f : UploadedFile) (st : Store) (hs : String)
    (h0 : findByHash st hs = none) (hne : sha256Hex f.content ≠ hs) :
    findByHash (stageInsertedStore uid sv f st) hs = none := by
  unfold findByHash
  rw [stageInsertedStore_images]
  exact find?_hash_append_one _ _ _ h0 hne

theorem stageFold_spec (uid : Nat) (sv : String) (files : List UploadedFile) :
    ∀ (up : List BatchItem) (cl : List ClassifiedItem) (st : Store),
    (∀ f ∈ files, fileExtension f.name ∈ allowed_extensions) →
    (∀ f ∈ files, ¬ f.content.length > max_size) →
    (∀ f ∈ files, findByHash st (sha256Hex f.content) = none) →
    files.Pairwise (fun a b => sha256Hex a.content ≠ sha256Hex b.content) →
    (files.foldl (stageStep (some uid) sv) (up, cl, st)).2.1.length
        = cl.length + files.length ∧
    (files.foldl (stageStep (some uid) sv) (up, cl, st)).2.2.images.length
        = st.images.length + files.length ∧
    (files.foldl (stageStep (some uid) sv) (up, cl, st)).2.2.classifications.length
        = st.classifications.length + files.length ∧
    ((files.foldl (stageStep (some uid) sv) (up, cl, st)).2.1.all
        (fun c => decide (c ∈ cl) || (c.stage == sv))) = true ∧
    ((files.foldl (stageStep (some uid) sv) (up, cl, st)).2.2.classifications.all
        (fun c => decide (c ∈ st.classifications)
          || (c.stage == sv && c.user == uid))) = true := by
  induction files with
  | nil =>
    intro up cl st _ _ _ _
    refine ⟨rfl, rfl, rfl, ?_, ?_⟩
    · rw [List.all_eq_true]
      intro c hc
      rw [List.foldl_nil] at hc
      simp [hc]
    · rw [List.all_eq_true]
      intro c hc
      rw [List.foldl_nil] at hc
      simp [hc]
  | cons f rest ih =>
    intro up cl st hext hsz hfresh hdist
    have hextf := hext f (List.mem_cons_self f rest)
    have hszf := hsz f (List.mem_cons_self f rest)
    have hfreshf := hfresh f (List.mem_cons_self f rest)
    rw [List.foldl_cons, stageStep_fresh_eq uid sv up cl st f hextf hszf hfreshf]
    have hdist' := List.pairwise_cons.1 hdist
    have hfresh' : ∀ g ∈ rest,
        findByHash (stageInsertedStore uid sv f st) (sha256Hex g.content)
          = none := by
      intro g hg
      exact findByHash_stageInsertedStore_none uid sv f st _
        (hfresh g (List.mem_cons_of_mem f hg)) (hdist'.1 g hg)
    obtain ⟨ih1, ih2, ih3, ih4, ih5⟩ := ih (up ++ [.uploadedNew st.nextImageId
        (MEDIA_URL ++ (save_uploaded_file st f (sha256Hex f.content)).1)])
      (cl ++ [⟨st.nextClsId, st.nextImageId, sv⟩]) (stageInsertedStore uid sv f st)
      (fun g hg => hext g (List.mem_cons_of_mem f hg))
      (fun g hg => hsz g (List.mem_cons_of_mem f hg))
      hfresh' hdist'.2
    refine ⟨?_, ?_, ?_, ?_, ?_⟩
    · rw [ih1]
      simp only [List.length_append, List.length_cons, List.length_nil]
      omega
    · rw [ih2, stageInsertedStore_images]
      simp only [List.length_append, List.length_cons, List.length_nil]
      omega
    · rw [ih3, stageInsertedStore_classifications]
      simp only [List.length_append, List.length_cons, List.length_nil]
      omega
    · rw [List.all_eq_true] at ih4 ⊢
      intro c hc
      have h' := ih4 c hc
      simp only [Bool.or_eq_true, decide_eq_true_eq, beq_iff_eq,
        List.mem_append, List.mem_singleton] at h' ⊢
      rcases h' with (hcl | hx) | hstage
      · exact Or.inl hcl
      · subst hx
        exact Or.inr rfl
      · exact Or.inr hstage
    · rw [List.all_eq_true] at ih5 ⊢
      intro c hc
      have h' := ih5 c hc
      simp only [stageInsertedStore_classifications, Bool.or_eq_true,
        Bool.and_eq_true, decide_eq_true_eq, beq_iff_eq,
        List.mem_append, List.mem_singleton] at h' ⊢
      rcases h' with (hold | hx) | hok
      · exact Or.inl hold
      · subst hx
        exact Or.inr ⟨rfl, rfl⟩
      · exact Or.inr hok

/-- C8: the combined upload-with-stage operation attaches a classification
to every successfully processed image.  For an authenticated user and a
valid stage: uploading n valid, pairwise-distinct, not-yet-stored images
adds n `Image` rows and n `Classification` rows, the response's
`classified` array has length n with every entry labeled with the stage,
and every new stored classification carries the stage and the user; a
dedup hit (content already stored) adds no image row but still creates
the classification against the existing `Image` row. -/
theorem C8_upload_with_stage (uid : Nat) (sv : String)
    (files : List UploadedFile) (st : Store) (f : UploadedFile) (ex : ImageRec)
    (hstage : sv ∈ valid_stages) (hne : files ≠ [])
    (hext : ∀ g ∈ files, fileExtension g.name ∈ allowed_extensions)
    (hsz : ∀ g ∈ files, ¬ g.content.length > max_size)
    (hfresh : ∀ g ∈ files, findByHash st (sha256Hex g.content) = none)
    (hdist : files.Pairwise (fun a b => sha256Hex a.content ≠ sha256Hex b.content))
    (hextf : fileExtension f.name ∈ allowed_extensions)
    (hszf : ¬ f.content.length > max_size)
    (hdup : findByHash st (sha256Hex f.content) = some ex) :
    (upload_with_stage (some uid) (some sv) files st).2.images.length
        = st.images.length + files.length ∧
    (upload_with_stage (some uid) (some sv) files st).2.classifications.length
        = st.classifications.length + files.length ∧
    (stageClassified (upload_with_stage (some uid) (some sv) files st).1).length
        = files.length ∧
    ((stageClassified (upload_with_stage (some uid) (some sv) files st).1).all
        (fun c => c.stage == sv)) = true ∧
    ((upload_with_stage (some uid) (some sv) files st).2.classifications.all
        (fun c => decide (c ∈ st.classifications)
          || (c.stage == sv && c.user == uid))) = true ∧
    upload_with_stage (some uid) (some sv) [f] st
      = (.ok [.existing ex.id (MEDIA_URL ++ ex.file_path)] sv
            [⟨st.nextClsId, ex.id, sv⟩],
         { st with
            classifications :=
              st.classifications ++ [⟨st.nextClsId, uid, ex.id, sv, ""⟩],
            nextClsId := st.nextClsId + 1 }) := by
  have e : upload_with_stage (some uid) (some sv) files st
      = (.ok (files.foldl (stageStep (some uid) sv) ([], [], st)).1 sv
            (files.foldl (stageStep (some uid) sv) ([], [], st)).2.1,
         (files.foldl (stageStep (some uid) sv) ([], [], st)).2.2) := by
    unfold upload_with_stage
    dsimp only
    rw [if_neg (not_not_intro hstage), if_neg hne]
  obtain ⟨s1, s2, s3, s4, s5⟩ :=
    stageFold_spec uid sv files [] [] st hext hsz hfresh hdist
  refine ⟨?_, ?_, ?_, ?_, ?_, ?_⟩
  · rw [e]; exact s2
  · rw [e]; exact s3
  · rw [e]
    show (files.foldl (stageStep (some uid) sv) ([], [], st)).2.1.length
        = files.length
    rw [s1]
    simp
  · rw [e]
    show ((files.foldl (stageStep (some uid) sv) ([], [], st)).2.1.all
        (fun c => c.stage == sv)) = true
    rw [List.all_eq_true] at s4 ⊢
    intro c hc
    have h' := s4 c hc
    simp only [Bool.or_eq_true, decide_eq_true_eq] at h'
    rcases h' with hmem | hst
    · exact absurd hmem (List.not_mem_nil c)
    · exact hst
  · rw [e]; exact s5
  · have e2 : upload_with_stage (some uid) (some sv) [f] st
        = (.ok ([f].foldl (stageStep (some uid) sv) ([], [], st)).1 sv
              ([f].foldl (stageStep (some uid) sv) ([], [], st)).2.1,
           ([f].foldl (stageStep (some uid) sv) ([], [], st)).2.2) := by
      unfold upload_with_stage
      dsimp only
      rw [if_neg (not_not_intro hstage), if_neg (by simp)]
    rw [e2, List.foldl_cons,
      stageStep_dup_eq uid sv [] [] st f ex hextf hszf hdup, List.foldl_nil]
    rfl

theorem C8_upload_with_stage_witness :
    "stage1" ∈ valid_stages ∧
    (upload_with_stage (some 1) (some "stage1")
        [⟨"b.jpg", [2]⟩, ⟨"c.png", [3]⟩]
        { emptyStore with
            images := [⟨1, "images/257.jpg", sha256Hex [1], "a.jpg", 1, some 1⟩],
            nextImageId := 2 }).2.classifications.length = 2 ∧
    (stageClassified (upload_with_stage (some 1) (some "stage1")
        [⟨"b.jpg", [2]⟩, ⟨"c.png", [3]⟩]
        { emptyStore with
            images := [⟨1, "images/257.jpg", sha256Hex [1], "a.jpg", 1, some 1⟩],
            nextImageId := 2 }).1).length = 2 ∧
    upload_with_stage (some 1) (some "stage1") [⟨"d.jpg", [1]⟩]
        { emptyStore with
            images := [⟨1, "images/257.jpg", sha256Hex [1], "a.jpg", 1, some 1⟩],
            nextImageId := 2 }
      = (.ok [.existing 1 (MEDIA_URL ++ "images/257.jpg")] "stage1"
            [⟨1, 1, "stage1"⟩],
         { emptyStore with
            images := [⟨1, "images/257.jpg", sha256Hex [1], "a.jpg", 1, some 1⟩],
            nextImageId := 2,
            classifications := [⟨1, 1, 1, "stage1", ""⟩],
            nextClsId := 2 }) :=
  ⟨by decide,
   (C8_upload_with_stage 1 "stage1" [⟨"b.jpg", [2]⟩, ⟨"c.png", [3]⟩]
      { emptyStore with
          images := [⟨1, "images/257.jpg", sha256Hex [1], "a.jpg", 1, some 1⟩],
          nextImageId := 2 }
      ⟨"d.jpg", [1]⟩ ⟨1, "images/257.jpg", sha256Hex [1], "a.jpg", 1, some 1⟩
      (by decide) (by decide) (by decide) (by decide) (by decide) (by decide)
      (by decide) (by decide) (by decide)).2.1,
   (C8_upload_with_stage 1 "stage1" [⟨"b.jpg", [2]⟩, ⟨"c.png", [3]⟩]
      { emptyStore with
          images := [⟨1, "images/257.jpg", sha256Hex [1], "a.jpg", 1, some 1⟩],
          nextImageId := 2 }
      ⟨"d.jpg", [1]⟩ ⟨1, "images/257.jpg", sha256Hex [1], "a.jpg", 1, some 1⟩
      (by decide) (by decide) (by decide) (by decide) (by decide) (by decide)
      (by decide) (by decide) (by decide)).2.2.1,
   (C8_upload_with_stage 1 "stage1" [⟨"b.jpg", [2]⟩, ⟨"c.png", [3]⟩]
      { emptyStore with
          images := [⟨1, "images/257.jpg", sha256Hex [1], "a.jpg", 1, some 1⟩],
          nextImageId := 2 }
      ⟨"d.jpg", [1]⟩ ⟨1, "images/257.jpg", sha256Hex [1], "a.jpg", 1, some 1⟩
      (by decide) (by decide) (by decide) (by decide) (by decide) (by decide)
      (by decide) (by decide) (by decide)).2.2.2.2.2⟩

theorem getPage_nil (page limit : Nat) : getPage [] page limit = [] := by
  unfold getPage
  simp

theorem take_ne_nil_of_pos {α : Type} {l : List α} {n : Nat} (hn : 0 < n)
    (hl : l ≠ []) : l.take n ≠ [] := by
  rcases l with _ | ⟨a, t⟩
  · exact absurd rfl hl
  · rcases n with _ | k
    · omega
    · simp [List.take_succ_cons]

theorem getPage_ne_nil {sel : List ClassificationRec} (page limit : Nat)
    (hlim : 0 < limit) (hsel : sel ≠ []) :
    getPage sel page limit ≠ [] := by
  have hcount : 0 < sel.length := List.length_pos.2 hsel
  show (sel.drop
      (((if page < 1 then max 1 ((sel.length + limit - 1) / limit)
          else min page (max 1 ((sel.length + limit - 1) / limit))) - 1)
        * limit)).take limit ≠ []
  have hd1 : 1 ≤ (sel.length + limit - 1) / limit :=
    (Nat.one_le_div_iff hlim).2 (by omega)
  rw [max_eq_right hd1]
  set q := (sel.length + limit - 1) / limit with hqdef
  set p := if page < 1 then q else min page q with hpdef
  have hple : p ≤ q := by
    rw [hpdef]
    split
    · exact le_refl q
    · exact min_le_right page q
  have hmul : q * limit ≤ sel.length + limit - 1 := Nat.div_mul_le_self _ _
  have hstep : (p - 1) * limit < sel.length := by
    calc (p - 1) * limit
        ≤ (q - 1) * limit := Nat.mul_le_mul_right limit (Nat.sub_le_sub_right hple 1)
      _ = q * limit - 1 * limit := Nat.sub_mul q 1 limit
      _ = q * limit - limit := by rw [Nat.one_mul]
      _ ≤ sel.length + limit - 1 - limit := Nat.sub_le_sub_right hmul limit
      _ < sel.length := by omega
  have hdrop_ne : sel.drop ((p - 1) * limit) ≠ [] := by
    intro hd
    have hle := List.drop_eq_nil_iff.1 hd
    exact absurd (Nat.lt_of_lt_of_le hstep hle) (Nat.lt_irrefl _)
  exact take_ne_nil_of_pos hlim hdrop_ne

theorem serializeAll_cons (r : ClassificationRec)
    (rs : List ClassificationRec) : serializeAll (r :: rs) = none := rfl

/-- C10 (amended): the listing succeeds (with an empty payload) exactly
when the filtered selection is empty; as soon as the requested page of
the selection holds any row, serialization reads the nonexistent
`classification`/`comment` attributes and the request fails with 500 — so
the endpoint can never return record data.  A `classification` query
filter fails with 500 outright (no such model field to filter on).
Single-record retrieval fails with 500 for every id that exists and 404
otherwise, so retrieving an existing record never succeeds.  (The claim
as stated — 500 whenever *any* record exists — is too strong: a
non-administrator whose own selection is empty receives 200 with an
empty list even on a nonempty ledger; see the counterexample.) -/
theorem C10_listing_and_get (st : Store) (requester : UserRec)
    (imageIdFilter : Option Nat) (userIdFilter : Option Nat) (cf : String)
    (page limit : Nat) (cid : Nat) (hlim : 0 < limit) :
    (list_select st requester imageIdFilter userIdFilter ≠ [] →
      list_classifications_endpoint st requester imageIdFilter none
        userIdFilter page limit = .serverError) ∧
    (list_select st requester imageIdFilter userIdFilter = [] →
      list_classifications_endpoint st requester imageIdFilter none
        userIdFilter page limit = .ok []) ∧
    list_classifications_endpoint st requester imageIdFilter (some cf)
        userIdFilter page limit = .serverError ∧
    (∀ c, st.classifications.find? (fun r => r.id == cid) = some c →
      get_classification_endpoint st cid = .serverError) ∧
    (st.classifications.find? (fun r => r.id == cid) = none →
      get_classification_endpoint st cid = .notFound) := by
  refine ⟨?_, ?_, ?_, ?_, ?_⟩
  · intro hne
    unfold list_classifications_endpoint
    rw [if_neg (by simp), if_neg (by omega)]
    dsimp only
    rcases hpg : getPage (list_select st requester imageIdFilter userIdFilter)
        page limit with _ | ⟨a, t⟩
    · exact absurd hpg (getPage_ne_nil page limit hlim hne)
    · rw [serializeAll_cons]
  · intro hnil
    unfold list_classifications_endpoint
    rw [if_neg (by simp), if_neg (by omega)]
    dsimp only
    rw [hnil, getPage_nil]
    rfl
  · unfold list_classifications_endpoint
    rw [if_pos (by simp)]
  · intro c hc
    unfold get_classification_endpoint
    rw [hc]
    rfl
  · intro hc
    unfold get_classification_endpoint
    rw [hc]

theorem C10_listing_and_get_witness :
    list_classifications_endpoint
        { emptyStore with classifications := [⟨1, 2, 5, "stage1", "x"⟩] }
        ⟨9, "s@e.co", true, true⟩ none none none 1 20 = .serverError ∧
    list_classifications_endpoint
        { emptyStore with classifications := [⟨1, 2, 5, "stage1", "x"⟩] }
        ⟨1, "u@e.co", true, false⟩ none none none 1 20 = .ok [] ∧
    list_classifications_endpoint
        { emptyStore with classifications := [⟨1, 2, 5, "stage1", "x"⟩] }
        ⟨9, "s@e.co", true, true⟩ none (some "stage1") none 1 20
      = .serverError ∧
    get_classification_endpoint
        { emptyStore with classifications := [⟨1, 2, 5, "stage1", "x"⟩] } 1
      = .serverError ∧
    get_classification_endpoint
        { emptyStore with classifications := [⟨1, 2, 5, "stage1", "x"⟩] } 7
      = .notFound :=
  ⟨(C10_listing_and_get
      { emptyStore with classifications := [⟨1, 2, 5, "stage1", "x"⟩] }
      ⟨9, "s@e.co", true, true⟩ none none "stage1" 1 20 1 (by decide)).1
      (by decide),
   (C10_listing_and_get
      { emptyStore with classifications := [⟨1, 2, 5, "stage1", "x"⟩] }
      ⟨1, "u@e.co", true, false⟩ none none "stage1" 1 20 1 (by decide)).2.1
      (by decide),
   (C10_listing_and_get
      { emptyStore with classifications := [⟨1, 2, 5, "stage1", "x"⟩] }
      ⟨9, "s@e.co", true, true⟩ none none "stage1" 1 20 1 (by decide)).2.2.1,
   (C10_listing_and_get
      { emptyStore with classifications := [⟨1, 2, 5, "stage1", "x"⟩] }
      ⟨9, "s@e.co", true, true⟩ none none "stage1" 1 20 1 (by decide)).2.2.2.1
      ⟨1, 2, 5, "stage1", "x"⟩ (by decide),
   (C10_listing_and_get
      { emptyStore with classifications := [⟨1, 2, 5, "stage1", "x"⟩] }
      ⟨9, "s@e.co", true, true⟩ none none "stage1" 1 20 7 (by decide)).2.2.2.2
      (by decide)⟩

theorem C10_counterexample :
    ({ emptyStore with classifications := [⟨1, 2, 5, "stage1", "x"⟩] }
        : Store).classifications.length = 1 ∧
    list_classifications_endpoint
        { emptyStore with classifications := [⟨1, 2, 5, "stage1", "x"⟩] }
        ⟨1, "u@e.co", true, false⟩ none none none 1 20 = .ok [] ∧
    (list_classifications_endpoint
        { emptyStore with classifications := [⟨1, 2, 5, "stage1", "x"⟩] }
        ⟨1, "u@e.co", true, false⟩ none none none 1 20).status = 200 := by
  decide
